import Mathlib

/-!
Verification of the invoice QR-code generator (`src/app.py`).

The Python source extracts payment fields from OCR text with regular
expressions (`parse_text`), builds the Czech QR-Platba payload string
(`generate_qr_platba`), delegates the Slovak PAY-by-square payload to an
external library (`pay_by_square.generate`), and dispatches between the two
on form submission.

Embedding choices:
* Text is modelled as `List Char`.
* Each regular expression of the source is embedded as a dedicated matcher
  over `List Char` together with a leftmost `re.search`-style scan.  The
  patterns contain no ambiguity that actual backtracking could resolve
  (every optional/greedy piece is followed by a character class disjoint
  from it), so the matchers commit greedily exactly as the regexes do.
* Monetary amounts are modelled as exact cent counts (`Nat`).  Every amount
  the parser produces has exactly two fractional digits, so this is exact;
  the `:.2f` formatting of the source becomes `formatCents`.
* The external Slovak encoder is a parameter of the submission function.
-/

namespace Faktury

/-- Characters matched by the regex class `\s` (ASCII range), as used by the
patterns in `parse_text`. -/
def isSpaceChar (c : Char) : Bool :=
  c == ' ' || c == '\t' || c == '\n' || c == '\r' || c == '\x0b' || c == '\x0c'

/-- Case folding used to model `re.IGNORECASE` on the characters appearing in
the source's patterns (ASCII letters plus the accented letters of the
patterns). -/
def foldChar (c : Char) : Char :=
  if c == 'Č' then 'č' else if c == 'Ý' then 'ý' else c.toLower

/-- Model of Python `str.upper()` on the characters relevant to the source
(ASCII letters plus the accented letters used in the currency test). -/
def upperChar (c : Char) : Char :=
  if c == 'č' then 'Č' else if c == 'ý' then 'ý'.toUpper else c.toUpper

/-- Model of Python `str.upper()` over whole strings. -/
def upperText (l : List Char) : List Char := l.map upperChar

/-- Word characters for the regex `\b` boundary (`[A-Za-z0-9_]` plus the
accented letters the embedding models). -/
def isWordChar (c : Char) : Bool :=
  c.isAlphanum || c == '_' || c == 'č' || c == 'Č' || c == 'ý' || c == 'Ý'

/-- Match exactly `n` digit characters (`[0-9]{n}`), returning the consumed
characters and the rest. -/
def matchDigits : Nat → List Char → Option (List Char × List Char)
  | 0, l => some ([], l)
  | _ + 1, [] => none
  | n + 1, c :: rest =>
    if c.isDigit then
      match matchDigits n rest with
      | some (d, r) => some (c :: d, r)
      | none => none
    else none

/-- Match the regex fragment `\s?[0-9]{4}` (greedy optional whitespace).
The whitespace branch is committed: if it is taken and the continuation
fails, retrying without it puts a whitespace character in front of `[0-9]`,
which fails as well, so this equals the backtracking semantics. -/
def matchSpGroup (l : List Char) : Option (List Char × List Char) :=
  match l with
  | c :: rest =>
    if isSpaceChar c then
      match matchDigits 4 rest with
      | some (d, r) => some (c :: d, r)
      | none => none
    else matchDigits 4 (c :: rest)
  | [] => none

/-- Match `n` copies of `\s?[0-9]{4}` in sequence. -/
def matchSpGroups : Nat → List Char → Option (List Char × List Char)
  | 0, l => some ([], l)
  | n + 1, l =>
    match matchSpGroup l with
    | none => none
    | some (g, r) =>
      match matchSpGroups n r with
      | none => none
      | some (t, r2) => some (g ++ t, r2)

/-- Match one alternative of the IBAN regex
`XY[0-9]{2}\s?[0-9]{4}\s?[0-9]{4}\s?[0-9]{4}\s?[0-9]{4}\s?[0-9]{4}`
anchored at the current position, for the two-letter code `a b`. -/
def matchIbanPfx (a b : Char) (l : List Char) : Option (List Char) :=
  match l with
  | c1 :: c2 :: rest =>
    if c1 == a && c2 == b then
      match matchDigits 2 rest with
      | none => none
      | some (d, r) =>
        match matchSpGroups 5 r with
        | none => none
        | some (g, _) => some (c1 :: c2 :: (d ++ g))
    else none
  | _ => none

/-- The alternation `SK...|CZ...` of the IBAN pattern at one position. -/
def matchIbanAt (l : List Char) : Option (List Char) :=
  match matchIbanPfx 'S' 'K' l with
  | some m => some m
  | none => matchIbanPfx 'C' 'Z' l

/-- Leftmost `re.search` scan for the IBAN pattern. -/
def searchIban : List Char → Option (List Char)
  | [] => none
  | c :: rest =>
    match matchIbanAt (c :: rest) with
    | some m => some m
    | none => searchIban rest

/-- Case-insensitive literal match (models a literal inside an
`re.IGNORECASE` pattern), returning consumed characters and the rest. -/
def matchLitCI : List Char → List Char → Option (List Char × List Char)
  | [], l => some ([], l)
  | _ :: _, [] => none
  | p :: ps, c :: cs =>
    if foldChar c == foldChar p then
      match matchLitCI ps cs with
      | some (m, r) => some (c :: m, r)
      | none => none
    else none

/-- The currency alternation `(EUR|€|Kč|CZK)` (case-insensitive).  The four
alternatives start with pairwise distinct folded characters, so trying them
in order without cross-alternative backtracking equals the regex
semantics. -/
def matchCurrency (l : List Char) : Option (List Char × List Char) :=
  match matchLitCI ['E', 'U', 'R'] l with
  | some r => some r
  | none =>
    match matchLitCI ['€'] l with
    | some r => some r
    | none =>
      match matchLitCI ['K', 'č'] l with
      | some r => some r
      | none => matchLitCI ['C', 'Z', 'K'] l

/-- One greedy attempt of `\d{k}[,.]\d{2}` for a fixed digit count `k`. -/
def matchNumTry (k : Nat) (l : List Char) : Option (List Char × List Char) :=
  match matchDigits k l with
  | none => none
  | some (d, r) =>
    match r with
    | s :: r2 =>
      if s == ',' || s == '.' then
        match matchDigits 2 r2 with
        | some (f, r3) => some (d ++ s :: f, r3)
        | none => none
      else none
    | [] => none

/-- Greedy `\d{1,10}[,.]\d{2}`: digit counts are tried from 10 down to 1,
as the greedy quantifier does.  (At most one count can reach the separator,
because the character after a shorter digit prefix is itself a digit.) -/
def matchNumAux : Nat → List Char → Option (List Char × List Char)
  | 0, _ => none
  | k + 1, l =>
    match matchNumTry (k + 1) l with
    | some r => some r
    | none => matchNumAux k l

/-- The amount group `(\d{1,10}[,.]\d{2})`. -/
def matchNum (l : List Char) : Option (List Char × List Char) :=
  matchNumAux 10 l

/-- The regex fragment `\s?` (greedy, committed: the continuations that
follow it in the source's patterns never match a whitespace character). -/
def skipOptSpace (l : List Char) : List Char :=
  match l with
  | c :: rest => if isSpaceChar c then rest else c :: rest
  | [] => []

/-- Pattern `(\d{1,10}[,.]\d{2})\s?(EUR|€|Kč|CZK)` at one position,
returning capture group 1. -/
def matchAmt1At (l : List Char) : Option (List Char) :=
  match matchNum l with
  | none => none
  | some (num, r) =>
    match matchCurrency (skipOptSpace r) with
    | some _ => some num
    | none => none

/-- Pattern `(EUR|€|Kč|CZK)\s?(\d{1,10}[,.]\d{2})` at one position,
returning capture group 2. -/
def matchAmt2At (l : List Char) : Option (List Char) :=
  match matchCurrency l with
  | none => none
  | some (_, r) =>
    match matchNum (skipOptSpace r) with
    | some (num, _) => some num
    | none => none

/-- Leftmost `re.search` scan for a position matcher. -/
def searchWith (m : List Char → Option (List Char)) : List Char → Option (List Char)
  | [] => none
  | c :: rest =>
    match m (c :: rest) with
    | some x => some x
    | none => searchWith m rest

/-- Numeric value of a digit string (most significant first). -/
def digitsVal (l : List Char) : Nat :=
  l.foldl (fun a c => a * 10 + (c.toNat - 48)) 0

/-- Model of `float(amount_str.replace(",", "."))`, in cents, for the
strings produced by the amount patterns (digits, one separator, exactly two
fractional digits — on that shape the float value is the exact cent
count). -/
def parseCents (s : List Char) : Nat :=
  digitsVal (s.takeWhile Char.isDigit) * 100
    + digitsVal ((s.dropWhile Char.isDigit).drop 1)

/-- The optional colon `:?` after the variable-symbol label (greedy). -/
def stripColon (r : List Char) : List Char :=
  match r with
  | ':' :: rest => rest
  | _ => r

/-- The digit run remaining after `:?\s*` in the variable-symbol pattern. -/
def vsDigits (r : List Char) : List Char :=
  List.takeWhile Char.isDigit (List.dropWhile isSpaceChar (stripColon r))

/-- The continuation `:?\s*(\d{1,10})` of the variable-symbol pattern after
a matched label, returning capture group 2.  `:?` and `\s*` are greedy and
committed (a colon is neither whitespace nor a digit, whitespace is not a
digit, and the final group has no right context), which equals the
backtracking semantics. -/
def matchVsCont (r : List Char) : Option (List Char) :=
  if (vsDigits r).isEmpty then none else some ((vsDigits r).take 10)

/-- The label alternative `Variabiln[yý] symbol` (case-insensitive),
returning the rest of the input. -/
def matchVarLabel (l : List Char) : Option (List Char) :=
  match matchLitCI ['V', 'a', 'r', 'i', 'a', 'b', 'i', 'l', 'n'] l with
  | none => none
  | some (_, r) =>
    match r with
    | c :: r2 =>
      if foldChar c == 'y' || foldChar c == 'ý' then
        match matchLitCI [' ', 's', 'y', 'm', 'b', 'o', 'l'] r2 with
        | some (_, r3) => some r3
        | none => none
      else none
    | [] => none

/-- Pattern `(VS|Variabiln[yý] symbol):?\s*(\d{1,10})` (case-insensitive)
at one position, returning capture group 2.  If the `VS` alternative
matches but its continuation fails, the second alternative is tried, as the
regex engine would. -/
def matchVsAt (l : List Char) : Option (List Char) :=
  match matchLitCI ['V', 'S'] l with
  | some (_, r) =>
    (match matchVsCont r with
     | some ds => some ds
     | none =>
       match matchVarLabel l with
       | some r2 => matchVsCont r2
       | none => none)
  | none =>
    match matchVarLabel l with
    | some r2 => matchVsCont r2
    | none => none

/-- The left `\b` test before the ten-digit run: start of text or a
non-word character. -/
def vsBoundaryLeft (prev : Option Char) : Bool :=
  match prev with
  | none => true
  | some c => !(isWordChar c)

/-- Pattern `\b(\d{10})\b` at one position; `prev` is the character before
the position (`none` at the start of the text). -/
def matchVs10At (prev : Option Char) (l : List Char) : Option (List Char) :=
  if vsBoundaryLeft prev = true then
    match matchDigits 10 l with
    | some (d, r) =>
      match r with
      | [] => some d
      | c :: _ => if isWordChar c then none else some d
    | none => none
  else none

/-- Leftmost scan for `\b(\d{10})\b`, threading the previous character for
the left boundary. -/
def searchVs10Aux (prev : Option Char) : List Char → Option (List Char)
  | [] => none
  | c :: rest =>
    match matchVs10At prev (c :: rest) with
    | some d => some d
    | none => searchVs10Aux (some c) rest

/-- `re.search` for `\b(\d{10})\b`. -/
def searchVs10 (l : List Char) : Option (List Char) :=
  searchVs10Aux none l

/-- Containment of `pat` as a contiguous substring, modelling Python's
`pat in text`. -/
def containsSeq (pat : List Char) : List Char → Bool
  | [] => pat.isEmpty
  | c :: rest => pat.isPrefixOf (c :: rest) || containsSeq pat rest

/-- The result tuple of `parse_text`. -/
structure Extracted where
  iban : List Char
  cents : Nat
  currency : List Char
  vs : List Char
deriving DecidableEq, Repr

/-- Embedding of `parse_text` (src/app.py lines 56–87). -/
def parse_text (text : List Char) : Extracted :=
  let iban :=
    match searchIban text with
    | some m => m.filter (fun c => c != ' ')
    | none => []
  let amount_str :=
    match searchWith matchAmt1At text with
    | some s => s
    | none =>
      match searchWith matchAmt2At text with
      | some s => s
      | none => []
  let cents := if amount_str.isEmpty then 0 else parseCents amount_str
  let currency :=
    if containsSeq (['C', 'Z', 'K']) (upperText text)
        || containsSeq (['K', 'Č']) (upperText text)
        || (!iban.isEmpty && List.isPrefixOf (['C', 'Z']) iban) then
      ['C', 'Z', 'K']
    else ['E', 'U', 'R']
  let vs :=
    match searchWith matchVsAt text with
    | some d => d
    | none =>
      match searchVs10 text with
      | some d => d
      | none => []
  ⟨iban, cents, currency, vs⟩

/-- Two-digit rendering of a number below 100 (the fractional part of the
`:.2f` format). -/
def fmtTwo (n : Nat) : List Char :=
  if n < 10 then ['0', Char.ofNat (48 + n)] else Nat.toDigits 10 n

/-- The `f"{amount:.2f}"` format of the source, on exact cent counts. -/
def formatCents (cents : Nat) : List Char :=
  Nat.toDigits 10 (cents / 100) ++ '.' :: fmtTwo (cents % 100)

/-- Model of Python `str.upper()` (`msg.upper()` in the source). -/
def strUpper (l : List Char) : List Char := l.map upperChar

/-- Embedding of `generate_qr_platba` (src/app.py lines 103–114); the
`if amount > 0` / truthiness tests of the source become the tests on the
cent count and on emptiness. -/
def generate_qr_platba (iban : List Char) (cents : Nat)
    (currency vs msg : List Char) : List Char :=
  let s0 := ("SPD*1.0*ACC:").data ++ iban ++ ['*']
  let s1 := if 0 < cents then s0 ++ ("AM:").data ++ formatCents cents ++ ['*'] else s0
  let s2 := if currency = [] then s1 else s1 ++ ("CC:").data ++ currency ++ ['*']
  let s3 := if msg = [] then s2 else s2 ++ ("MSG:").data ++ strUpper msg ++ ['*']
  if vs = [] then s3 else s3 ++ ("X-VS:").data ++ vs ++ ['*']

/-- The country radio choice of the form. -/
inductive Country
  | slovakia
  | czechia
deriving DecidableEq

/-- Error message shown for an empty IBAN at submission. -/
def errIbanRequired : List Char := ("IBAN je povinný údaj.").data

/-- Warning shown when the Slovak form is chosen but the IBAN does not
start with SK. -/
def warnNotSK : List Char :=
  ("Zvolili ste slovenskú faktúru, ale IBAN nevyzerá ako slovenský (nezačína na SK).").data

/-- Warning shown when the Czech form is chosen but the IBAN does not start
with CZ. -/
def warnNotCZ : List Char :=
  ("Zvolili ste českú faktúru, ale IBAN nevyzerá ako český (nezačína na CZ).").data

/-- Outcome of one form submission: the error/warning messages raised and
the payload string handed to the QR renderer (if any). -/
structure SubmitResult where
  errors : List (List Char)
  warnings : List (List Char)
  qr_data : Option (List Char)
deriving DecidableEq

/-- Embedding of the submission branch of the form (src/app.py lines
175–189).  The Slovak encoder `generate_pay_by_square` wraps the external
`pay_by_square.generate` in try/except and returns `None` on failure, so it
is modelled as a parameter returning `Option`. -/
def submit (encodeA : List Char → Nat → List Char → List Char → List Char → Option (List Char))
    (country : Country) (iban : List Char) (cents : Nat)
    (currency vs msg : List Char) : SubmitResult :=
  if iban = [] then
    { errors := [errIbanRequired], warnings := [], qr_data := none }
  else
    match country with
    | Country.slovakia =>
      { errors := []
        warnings := if List.isPrefixOf (['S', 'K']) iban then [] else [warnNotSK]
        qr_data := encodeA iban cents currency vs msg }
    | Country.czechia =>
      { errors := []
        warnings := if List.isPrefixOf (['C', 'Z']) iban then [] else [warnNotCZ]
        qr_data := some (generate_qr_platba iban cents currency vs msg) }

/-! ### Unfolding lemmas for the fields of `parse_text` -/

/-- The identifier field of `parse_text`, unfolded. -/
theorem parse_text_iban (text : List Char) :
    (parse_text text).iban =
      match searchIban text with
      | some m => m.filter (fun c => c != ' ')
      | none => [] := rfl

/-- The amount field of `parse_text`, unfolded. -/
theorem parse_text_cents (text : List Char) :
    (parse_text text).cents =
      (fun s => if s.isEmpty then 0 else parseCents s)
        (match searchWith matchAmt1At text with
         | some s => s
         | none =>
           match searchWith matchAmt2At text with
           | some s => s
           | none => []) := rfl

/-- The currency field of `parse_text`, unfolded. -/
theorem parse_text_currency (text : List Char) :
    (parse_text text).currency =
      if containsSeq (['C', 'Z', 'K']) (upperText text)
          || containsSeq (['K', 'Č']) (upperText text)
          || (!(parse_text text).iban.isEmpty
              && List.isPrefixOf (['C', 'Z']) (parse_text text).iban) then
        ['C', 'Z', 'K']
      else ['E', 'U', 'R'] := rfl

/-- The variable-symbol field of `parse_text`, unfolded. -/
theorem parse_text_vs (text : List Char) :
    (parse_text text).vs =
      match searchWith matchVsAt text with
      | some d => d
      | none =>
        match searchVs10 text with
        | some d => d
        | none => [] := rfl

/-- `generate_qr_platba` written as one flat concatenation of conditional
segments. -/
theorem generate_qr_platba_eq (iban : List Char) (cents : Nat)
    (currency vs msg : List Char) :
    generate_qr_platba iban cents currency vs msg =
      ("SPD*1.0*ACC:").data ++ iban ++ ['*']
        ++ (if 0 < cents then ("AM:").data ++ formatCents cents ++ ['*'] else [])
        ++ (if currency = [] then [] else ("CC:").data ++ currency ++ ['*'])
        ++ (if msg = [] then [] else ("MSG:").data ++ strUpper msg ++ ['*'])
        ++ (if vs = [] then [] else ("X-VS:").data ++ vs ++ ['*']) := by
  unfold generate_qr_platba
  by_cases h1 : 0 < cents <;> by_cases h2 : currency = [] <;>
    by_cases h3 : msg = [] <;> by_cases h4 : vs = [] <;>
      simp [h1, h2, h3, h4, List.append_assoc]

/-- C1: for every identifier, amount, currency, reference and note,
`generate_qr_platba` returns exactly the header `SPD*1.0*ACC:{id}*`
followed, in this fixed order, by the `AM:` segment (amount with exactly
two fractional digits) only when the amount is positive, the `CC:` segment
only when the currency is non-empty, the `MSG:` segment (note upper-cased)
only when the note is non-empty, and the `X-VS:` segment only when the
reference is non-empty; in particular the spec's concrete example payload
is produced verbatim. -/
theorem c1_encodeB_format (iban : List Char) (cents : Nat)
    (currency vs msg : List Char) :
    (generate_qr_platba iban cents currency vs msg =
      ("SPD*1.0*ACC:").data ++ iban ++ ['*']
        ++ (if 0 < cents then ("AM:").data ++ formatCents cents ++ ['*'] else [])
        ++ (if currency ≠ [] then ("CC:").data ++ currency ++ ['*'] else [])
        ++ (if msg ≠ [] then ("MSG:").data ++ strUpper msg ++ ['*'] else [])
        ++ (if vs ≠ [] then ("X-VS:").data ++ vs ++ ['*'] else []))
    ∧ generate_qr_platba (("CZ6508000000192000145399").data) 25000
        (("CZK").data) (("2023001").data) (("invoice").data)
      = ("SPD*1.0*ACC:CZ6508000000192000145399*AM:250.00*CC:CZK*MSG:INVOICE*X-VS:2023001*").data := by
  refine ⟨?_, by decide⟩
  rw [generate_qr_platba_eq]
  simp only [ite_not]

/-- C2: `generate_qr_platba` is a total pure string builder: on every input
(including an empty identifier, zero amount, empty currency, empty note and
empty reference) it returns a payload that starts with the `ACC:{id}`
segment; absent optional fields are simply omitted, as the all-defaults
evaluation shows. -/
theorem c2_encodeB_total (iban : List Char) (cents : Nat)
    (currency vs msg : List Char) :
    (∃ rest, generate_qr_platba iban cents currency vs msg
        = ("SPD*1.0*ACC:").data ++ iban ++ '*' :: rest)
    ∧ generate_qr_platba [] 0 [] [] [] = ("SPD*1.0*ACC:*").data := by
  refine ⟨⟨(if 0 < cents then ("AM:").data ++ formatCents cents ++ ['*'] else [])
      ++ (if currency = [] then [] else ("CC:").data ++ currency ++ ['*'])
      ++ (if msg = [] then [] else ("MSG:").data ++ strUpper msg ++ ['*'])
      ++ (if vs = [] then [] else ("X-VS:").data ++ vs ++ ['*']), ?_⟩, by decide⟩
  rw [generate_qr_platba_eq]
  simp [List.append_assoc]

/-- C9: an empty identifier blocks generation for both regions: the error
is reported, no payload is produced, and no encoder is invoked (the result
does not depend on the region-A encoder at all). -/
theorem c9_empty_iban_blocks
    (encA encA' : List Char → Nat → List Char → List Char → List Char → Option (List Char))
    (country : Country) (cents : Nat) (currency vs msg : List Char) :
    (submit encA country [] cents currency vs msg).errors = [errIbanRequired]
    ∧ (submit encA country [] cents currency vs msg).qr_data = none
    ∧ submit encA country [] cents currency vs msg
        = submit encA' country [] cents currency vs msg := by
  refine ⟨?_, ?_, ?_⟩ <;> simp [submit]

/-! ### Soundness facts about the matchers -/

/-- A successful `matchNumTry` always captured a non-empty group (it
contains at least the separator). -/
theorem matchNumTry_shape {k : Nat} {l num r : List Char}
    (h : matchNumTry k l = some (num, r)) : ∃ d s f, num = d ++ s :: f := by
  unfold matchNumTry at h
  split at h
  · cases h
  · split at h
    · split at h
      · split at h
        · simp only [Option.some.injEq, Prod.mk.injEq] at h
          exact ⟨_, _, _, h.1.symm⟩
        · cases h
      · cases h
    · cases h

/-- A successful `matchNumAux` captured a non-empty group. -/
theorem matchNumAux_shape {k : Nat} {l num r : List Char}
    (h : matchNumAux k l = some (num, r)) : ∃ d s f, num = d ++ s :: f := by
  induction k generalizing l with
  | zero => cases h
  | succ k ih =>
    unfold matchNumAux at h
    cases ht : matchNumTry (k + 1) l with
    | some p =>
      rw [ht] at h
      simp only [Option.some.injEq] at h
      subst h
      exact matchNumTry_shape ht
    | none => rw [ht] at h; exact ih h

/-- The group returned by the amount-then-currency pattern is non-empty. -/
theorem matchAmt1At_ne_nil {l num : List Char}
    (h : matchAmt1At l = some num) : num ≠ [] := by
  unfold matchAmt1At at h
  split at h
  · cases h
  · rename_i n0 r hm
    split at h
    · simp only [Option.some.injEq] at h
      subst h
      obtain ⟨d, s, f, hshape⟩ := matchNumAux_shape hm
      simp [hshape]
    · cases h

/-- The group returned by the currency-then-amount pattern is non-empty. -/
theorem matchAmt2At_ne_nil {l num : List Char}
    (h : matchAmt2At l = some num) : num ≠ [] := by
  unfold matchAmt2At at h
  split at h
  · cases h
  · split at h
    · rename_i m0 r hc n0 r2 hm
      simp only [Option.some.injEq] at h
      subst h
      obtain ⟨d, s, f, hshape⟩ := matchNumAux_shape hm
      simp [hshape]
    · cases h

/-- A hit of the leftmost scan comes from the matcher succeeding on some
suffix of the text. -/
theorem searchWith_some {m : List Char → Option (List Char)} {l x : List Char}
    (h : searchWith m l = some x) : ∃ t, t <:+ l ∧ m t = some x := by
  induction l with
  | nil => cases h
  | cons c rest ih =>
    unfold searchWith at h
    cases hm : m (c :: rest) with
    | some y =>
      rw [hm] at h
      simp only [Option.some.injEq] at h
      subst h
      exact ⟨c :: rest, List.suffix_refl _, hm⟩
    | none =>
      rw [hm] at h
      obtain ⟨t, ht, hmt⟩ := ih h
      exact ⟨t, ht.trans (List.suffix_cons c rest), hmt⟩

/-- C4: the amount is taken from the amount-then-currency pattern when it
matches anywhere, otherwise from the currency-then-amount pattern, and
defaults to zero when neither matches; the captured string (separator
normalized) is parsed as the value, and the spec's two concrete examples
evaluate as stated (in cents: 12345 and 990). -/
theorem c4_amount (text : List Char) :
    ((parse_text (("Total 123,45 EUR").data)).cents = 12345
      ∧ (parse_text (("EUR 9,90").data)).cents = 990)
    ∧ (∀ s, searchWith matchAmt1At text = some s →
        (parse_text text).cents = parseCents s)
    ∧ (searchWith matchAmt1At text = none →
        ∀ s, searchWith matchAmt2At text = some s →
          (parse_text text).cents = parseCents s)
    ∧ (searchWith matchAmt1At text = none →
        searchWith matchAmt2At text = none → (parse_text text).cents = 0) := by
  refine ⟨⟨by decide, by decide⟩, ?_, ?_, ?_⟩
  · intro s hs
    have hne : s ≠ [] := by
      obtain ⟨t, _, hmt⟩ := searchWith_some hs
      exact matchAmt1At_ne_nil hmt
    rw [parse_text_cents, hs]
    simp [hne]
  · intro h1 s hs
    have hne : s ≠ [] := by
      obtain ⟨t, _, hmt⟩ := searchWith_some hs
      exact matchAmt2At_ne_nil hmt
    rw [parse_text_cents, h1, hs]
    simp [hne]
  · intro h1 h2
    rw [parse_text_cents, h1, h2]
    rfl

/-- Witness for C4 at the spec's currency-before-amount example. -/
theorem c4_witness :
    searchWith matchAmt1At (("EUR 9,90").data) = none
    ∧ searchWith matchAmt2At (("EUR 9,90").data) = some (("9,90").data)
    ∧ (parse_text (("EUR 9,90").data)).cents = parseCents (("9,90").data) :=
  ⟨by decide, by decide,
    (c4_amount (("EUR 9,90").data)).2.2.1 (by decide) (("9,90").data) (by decide)⟩

/-- C6: the reference code comes from the labeled pattern
`(VS|Variabiln[yý] symbol):?\s*(\d{1,10})` when it matches, otherwise from
the first standalone ten-digit run bounded by word boundaries, otherwise it
is empty; the spec's two concrete examples evaluate as stated. -/
theorem c6_reference (text : List Char) :
    ((parse_text (("VS: 0001234567 ...").data)).vs = ("0001234567").data
      ∧ (parse_text (("... 1234567890 ...").data)).vs = ("1234567890").data)
    ∧ (∀ d, searchWith matchVsAt text = some d → (parse_text text).vs = d)
    ∧ (searchWith matchVsAt text = none →
        ∀ d, searchVs10 text = some d → (parse_text text).vs = d)
    ∧ (searchWith matchVsAt text = none → searchVs10 text = none →
        (parse_text text).vs = []) := by
  refine ⟨⟨by decide, by decide⟩, ?_, ?_, ?_⟩
  · intro d hd
    rw [parse_text_vs, hd]
  · intro h1 d hd
    rw [parse_text_vs, h1, hd]
  · intro h1 h2
    rw [parse_text_vs, h1, h2]

/-- Witness for C6 at a small labeled input. -/
theorem c6_witness :
    searchWith matchVsAt (("VS: 7").data) = some (['7'])
    ∧ (parse_text (("VS: 7").data)).vs = ['7'] :=
  ⟨by decide, (c6_reference (("VS: 7").data)).2.1 (['7']) (by decide)⟩

/-- Full soundness of `matchDigits`: it consumes exactly `n` leading digit
characters. -/
theorem matchDigits_some {n : Nat} {l d r : List Char}
    (h : matchDigits n l = some (d, r)) :
    d.length = n ∧ (∀ c ∈ d, c.isDigit = true) ∧ l = d ++ r := by
  induction n generalizing l d r with
  | zero =>
    unfold matchDigits at h
    simp only [Option.some.injEq, Prod.mk.injEq] at h
    obtain ⟨h1, h2⟩ := h
    subst h1
    subst h2
    simp
  | succ n ih =>
    cases l with
    | nil => cases h
    | cons c t =>
      unfold matchDigits at h
      by_cases hc : c.isDigit = true
      · rw [if_pos hc] at h
        cases hm : matchDigits n t with
        | none => rw [hm] at h; simp at h
        | some p =>
          obtain ⟨d0, r0⟩ := p
          rw [hm] at h
          simp only [Option.some.injEq, Prod.mk.injEq] at h
          obtain ⟨h1, h2⟩ := h
          subst h2
          subst h1
          obtain ⟨hl, hdig, heq⟩ := ih hm
          refine ⟨by simp [hl], ?_, by simp [heq]⟩
          intro x hx
          rcases List.mem_cons.mp hx with hx | hx
          · subst hx; exact hc
          · exact hdig x hx
      · rw [if_neg hc] at h
        cases h

/-- The digits captured by the labeled variable-symbol continuation are
digit characters. -/
theorem matchVsCont_digits {r ds : List Char} (h : matchVsCont r = some ds) :
    ∀ c ∈ ds, c.isDigit = true := by
  unfold matchVsCont at h
  split at h
  · cases h
  · simp only [Option.some.injEq] at h
    subst h
    intro c hc
    exact List.mem_takeWhile_imp (List.mem_of_mem_take hc)

/-- Every hit of the labeled variable-symbol pattern is a hit of its digit
continuation. -/
theorem matchVsAt_eq_cont {l ds : List Char} (h : matchVsAt l = some ds) :
    ∃ r, matchVsCont r = some ds := by
  unfold matchVsAt at h
  split at h
  · split at h
    · rename_i heq
      simp only [Option.some.injEq] at h
      subst h
      exact ⟨_, heq⟩
    · split at h
      · exact ⟨_, h⟩
      · cases h
  · split at h
    · exact ⟨_, h⟩
    · cases h

/-- The digits returned by the labeled variable-symbol pattern are digit
characters. -/
theorem matchVsAt_digits {l ds : List Char} (h : matchVsAt l = some ds) :
    ∀ c ∈ ds, c.isDigit = true := by
  obtain ⟨r, hr⟩ := matchVsAt_eq_cont h
  exact matchVsCont_digits hr

/-- The ten-digit fallback pattern returns digit characters. -/
theorem matchVs10At_digits {prev : Option Char} {l d : List Char}
    (h : matchVs10At prev l = some d) : ∀ c ∈ d, c.isDigit = true := by
  unfold matchVs10At at h
  split at h
  · cases hm : matchDigits 10 l with
    | none => rw [hm] at h; simp at h
    | some p =>
      obtain ⟨d0, r0⟩ := p
      rw [hm] at h
      cases r0 with
      | nil =>
        simp only [Option.some.injEq] at h
        subst h
        exact (matchDigits_some hm).2.1
      | cons c2 rest =>
        by_cases hw : isWordChar c2 = true
        · simp [hw] at h
        · simp [hw] at h
          subst h
          exact (matchDigits_some hm).2.1
  · cases h

/-- A hit of the ten-digit fallback scan comes from the position matcher. -/
theorem searchVs10Aux_some {prev : Option Char} {l d : List Char}
    (h : searchVs10Aux prev l = some d) :
    ∃ p t, matchVs10At p t = some d := by
  induction l generalizing prev with
  | nil => cases h
  | cons c rest ih =>
    unfold searchVs10Aux at h
    cases hm : matchVs10At prev (c :: rest) with
    | some d0 =>
      rw [hm] at h
      simp only [Option.some.injEq] at h
      subst h
      exact ⟨prev, c :: rest, hm⟩
    | none =>
      rw [hm] at h
      exact ih h

/-- C7: `parse_text` is total by construction, and its result satisfies the
data-model invariants: the currency is one of EUR/CZK (default EUR), the
reference code consists of digit characters, the amount is a non-negative
cent count (default 0), and every field whose pattern finds no match takes
its default value. -/
theorem c7_invariants (text : List Char) :
    ((parse_text text).currency = ("EUR").data
      ∨ (parse_text text).currency = ("CZK").data)
    ∧ (∀ c ∈ (parse_text text).vs, c.isDigit = true)
    ∧ 0 ≤ (parse_text text).cents
    ∧ (searchIban text = none → (parse_text text).iban = [])
    ∧ (searchWith matchAmt1At text = none →
        searchWith matchAmt2At text = none → (parse_text text).cents = 0)
    ∧ (searchWith matchVsAt text = none → searchVs10 text = none →
        (parse_text text).vs = []) := by
  refine ⟨?_, ?_, Nat.zero_le _, ?_, ?_, ?_⟩
  · rw [parse_text_currency]
    split
    · right; rfl
    · left; rfl
  · rw [parse_text_vs]
    split
    · rename_i d hv
      obtain ⟨t, _, hmt⟩ := searchWith_some hv
      exact matchVsAt_digits hmt
    · split
      · rename_i d h10
        obtain ⟨p, t, hpt⟩ := searchVs10Aux_some h10
        exact matchVs10At_digits hpt
      · simp
  · intro h
    rw [parse_text_iban, h]
  · intro h1 h2
    rw [parse_text_cents, h1, h2]
    rfl
  · intro h1 h2
    rw [parse_text_vs, h1, h2]

/-- Witness for C7 at the empty text: every field takes its default. -/
theorem c7_witness :
    ((parse_text []).currency = ("EUR").data
      ∨ (parse_text []).currency = ("CZK").data)
    ∧ (parse_text []).iban = []
    ∧ (parse_text []).cents = 0
    ∧ (parse_text []).vs = [] :=
  ⟨(c7_invariants []).1,
    (c7_invariants []).2.2.2.1 (by decide),
    (c7_invariants []).2.2.2.2.1 (by decide) (by decide),
    (c7_invariants []).2.2.2.2.2 (by decide) (by decide)⟩

/-! ### The currency rule (C5) -/

/-- `containsSeq` decides contiguous-substring containment. -/
theorem containsSeq_iff {pat l : List Char} :
    containsSeq pat l = true ↔ pat <:+: l := by
  induction l with
  | nil => simp [containsSeq, List.isEmpty_iff, List.infix_nil]
  | cons c rest ih =>
    simp only [containsSeq, Bool.or_eq_true, List.isPrefixOf_iff_prefix, ih,
      List.infix_cons_iff]

/-- An infix of a mapped list is the image of an infix. -/
theorem infix_map_iff {f : Char → Char} {p l : List Char} :
    p <:+: List.map f l ↔ ∃ s, s <:+: l ∧ List.map f s = p := by
  constructor
  · rintro ⟨a, b, hab⟩
    have h1 : List.map f l = a ++ (p ++ b) := by rw [← hab, List.append_assoc]
    obtain ⟨l1, l2, hl, hma, hrest⟩ := List.map_eq_append_iff.mp h1
    obtain ⟨l3, l4, hl2, hmp, hmb⟩ := List.map_eq_append_iff.mp hrest
    exact ⟨l3, ⟨l1, l4, by rw [hl, hl2, List.append_assoc]⟩, hmp⟩
  · rintro ⟨s, hs, rfl⟩
    exact hs.map f

/-- The source's truthiness test `iban and iban.startswith("CZ")` is
exactly the prefix property. -/
theorem iban_cz_cond_iff {iban : List Char} :
    (!iban.isEmpty && List.isPrefixOf (['C', 'Z']) iban) = true
      ↔ ['C', 'Z'] <+: iban := by
  constructor
  · intro h
    rw [Bool.and_eq_true] at h
    exact List.isPrefixOf_iff_prefix.mp h.2
  · intro h
    rw [Bool.and_eq_true]
    refine ⟨?_, List.isPrefixOf_iff_prefix.mpr h⟩
    obtain ⟨t, ht⟩ := h
    rw [← ht]
    simp

/-- Case-insensitive containment of `pat` in `text`: some contiguous
substring of `text` upper-cases to `pat`. -/
def ciContains (pat text : List Char) : Prop :=
  ∃ s, s <:+: text ∧ List.map upperChar s = pat

/-- C5: the extracted currency defaults to EUR and is CZK exactly when the
text contains the marker CZK or Kč case-insensitively, or the extracted
account identifier starts with the CZ prefix. -/
theorem c5_currency_rule (text : List Char) :
    ((parse_text text).currency = ("CZK").data ↔
      (ciContains (("CZK").data) text ∨ ciContains (['K', 'Č']) text
        ∨ ['C', 'Z'] <+: (parse_text text).iban))
    ∧ ((parse_text text).currency = ("EUR").data ↔
      ¬(ciContains (("CZK").data) text ∨ ciContains (['K', 'Č']) text
        ∨ ['C', 'Z'] <+: (parse_text text).iban)) := by
  have hcz : containsSeq (['C', 'Z', 'K']) (upperText text) = true
      ↔ ciContains (("CZK").data) text := by
    rw [containsSeq_iff]
    exact infix_map_iff
  have hkc : containsSeq (['K', 'Č']) (upperText text) = true
      ↔ ciContains (['K', 'Č']) text := by
    rw [containsSeq_iff]
    exact infix_map_iff
  have hiff : (containsSeq (['C', 'Z', 'K']) (upperText text)
      || containsSeq (['K', 'Č']) (upperText text)
      || (!(parse_text text).iban.isEmpty
          && List.isPrefixOf (['C', 'Z']) (parse_text text).iban)) = true
      ↔ (ciContains (("CZK").data) text ∨ ciContains (['K', 'Č']) text
          ∨ ['C', 'Z'] <+: (parse_text text).iban) := by
    simp only [Bool.or_eq_true, hcz, hkc, iban_cz_cond_iff, or_assoc]
  rw [parse_text_currency]
  split
  · rename_i hc
    have hP := hiff.mp hc
    exact ⟨⟨fun _ => hP, fun _ => rfl⟩,
      ⟨fun h => absurd h (by decide), fun hnp => absurd hP hnp⟩⟩
  · rename_i hc
    have hnP := fun hp => hc (hiff.mpr hp)
    exact ⟨⟨fun h => absurd h (by decide), fun hp => absurd hp hnP⟩,
      ⟨fun _ => hnP, fun _ => rfl⟩⟩

/-! ### Submission dispatch (C8) and the over-long labeled capture (C10) -/

/-- C8: for a non-empty identifier the submission dispatches to the encoder
of the chosen region regardless of the identifier prefix; a prefix/region
mismatch only adds a warning (no error), and the Czech path always returns
the non-null `generate_qr_platba` payload. -/
theorem c8_selector
    (encA : List Char → Nat → List Char → List Char → List Char → Option (List Char))
    (iban : List Char) (cents : Nat) (currency vs msg : List Char)
    (h : iban ≠ []) :
    (submit encA Country.czechia iban cents currency vs msg).qr_data
        = some (generate_qr_platba iban cents currency vs msg)
    ∧ (submit encA Country.czechia iban cents currency vs msg).errors = []
    ∧ (List.isPrefixOf (['C', 'Z']) iban = false →
        (submit encA Country.czechia iban cents currency vs msg).warnings = [warnNotCZ])
    ∧ (submit encA Country.slovakia iban cents currency vs msg).qr_data
        = encA iban cents currency vs msg
    ∧ (submit encA Country.slovakia iban cents currency vs msg).errors = []
    ∧ (List.isPrefixOf (['S', 'K']) iban = false →
        (submit encA Country.slovakia iban cents currency vs msg).warnings = [warnNotSK]) := by
  refine ⟨?_, ?_, ?_, ?_, ?_, ?_⟩
  · simp [submit, h]
  · simp [submit, h]
  · intro hpf
    simp [submit, h, hpf]
  · simp [submit, h]
  · simp [submit, h]
  · intro hpf
    simp [submit, h, hpf]

/-- Witness for C8: Czech region chosen with an SK identifier still yields
the QR Platba payload, plus the mismatch warning. -/
theorem c8_witness :
    ("SK99").data ≠ ([] : List Char)
    ∧ (submit (fun _ _ _ _ _ => none) Country.czechia (("SK99").data) 100
        (("CZK").data) (("1").data) (("a").data)).qr_data
      = some (generate_qr_platba (("SK99").data) 100 (("CZK").data)
          (("1").data) (("a").data))
    ∧ (submit (fun _ _ _ _ _ => none) Country.czechia (("SK99").data) 100
        (("CZK").data) (("1").data) (("a").data)).warnings = [warnNotCZ] :=
  ⟨by decide,
    (c8_selector (fun _ _ _ _ _ => none) (("SK99").data) 100 (("CZK").data)
      (("1").data) (("a").data) (by decide)).1,
    (c8_selector (fun _ _ _ _ _ => none) (("SK99").data) 100 (("CZK").data)
      (("1").data) (("a").data) (by decide)).2.2.1 (by decide)⟩

/-- A digit character is not regex whitespace. -/
theorem isSpaceChar_of_isDigit {c : Char} (h : c.isDigit = true) :
    isSpaceChar c = false := by
  have hne : ∀ x : Char, x.isDigit = false → (c == x) = false := by
    intro x hx
    refine beq_eq_false_iff_ne.mpr ?_
    intro hcx
    subst hcx
    rw [h] at hx
    cases hx
  unfold isSpaceChar
  rw [hne ' ' (by decide), hne '\t' (by decide), hne '\n' (by decide),
    hne '\r' (by decide), hne '\x0b' (by decide), hne '\x0c' (by decide)]
  rfl

/-- C10: when the variable-symbol label is followed by a run of more than
ten digits, the labeled match is not rejected: exactly the first ten digits
of the run are captured, because the labeled capture has no right boundary
(unlike the ten-digit fallback). -/
theorem c10_vs_overlong (ds : List Char) (hlen : 10 < ds.length)
    (hd : ∀ c ∈ ds, c.isDigit = true) :
    (parse_text (("VS: ").data ++ ds)).vs = ds.take 10 := by
  obtain ⟨c0, tl, rfl⟩ :=
    List.exists_cons_of_ne_nil
      (show ds ≠ [] from fun hnil => by subst hnil; simp at hlen)
  have hc0 : c0.isDigit = true := hd c0 (by simp)
  have hdrop : List.dropWhile isSpaceChar (' ' :: c0 :: tl) = c0 :: tl := by
    have h1 : isSpaceChar ' ' = true := rfl
    have h2 : isSpaceChar c0 = false := isSpaceChar_of_isDigit hc0
    simp [List.dropWhile_cons, h1, h2]
  have htake : List.takeWhile Char.isDigit (c0 :: tl) = c0 :: tl :=
    List.takeWhile_eq_self_iff.mpr hd
  have hcont : matchVsCont (':' :: ' ' :: c0 :: tl) = some ((c0 :: tl).take 10) := by
    unfold matchVsCont vsDigits
    rw [show stripColon (':' :: ' ' :: c0 :: tl) = ' ' :: c0 :: tl from rfl,
      hdrop, htake]
    simp
  have h1 : matchLitCI ['V', 'S'] ('V' :: 'S' :: ':' :: ' ' :: c0 :: tl)
      = some (['V', 'S'], ':' :: ' ' :: c0 :: tl) := rfl
  have hat : matchVsAt ('V' :: 'S' :: ':' :: ' ' :: c0 :: tl)
      = some ((c0 :: tl).take 10) := by
    unfold matchVsAt
    rw [h1]
    simp [hcont]
  have hsearch : searchWith matchVsAt ('V' :: 'S' :: ':' :: ' ' :: c0 :: tl)
      = some ((c0 :: tl).take 10) := by
    unfold searchWith
    rw [hat]
  show (parse_text ('V' :: 'S' :: ':' :: ' ' :: c0 :: tl)).vs = (c0 :: tl).take 10
  rw [parse_text_vs, hsearch]

/-- Witness for C10 at the twelve-digit example. -/
theorem c10_witness :
    10 < ("123456789012").data.length
    ∧ (parse_text (("VS: ").data ++ ("123456789012").data)).vs
        = ("1234567890").data :=
  ⟨by decide,
    (c10_vs_overlong (("123456789012").data) (by decide) (by decide)).trans
      (by decide)⟩

/-! ### The identifier pattern (C3) -/

/-- A digit character is not the space character. -/
theorem bne_space_of_isDigit {c : Char} (h : c.isDigit = true) :
    (c != ' ') = true := by
  refine bne_iff_ne.mpr ?_
  intro hc
  subst hc
  exact absurd h (by decide)

/-- Removing spaces from an all-digit string is the identity. -/
theorem filter_space_digits {l : List Char} (h : ∀ c ∈ l, c.isDigit = true) :
    l.filter (fun c => c != ' ') = l := by
  induction l with
  | nil => rfl
  | cons c t ih =>
    rw [List.filter_cons, if_pos (bne_space_of_isDigit (h c (by simp))),
      ih (fun x hx => h x (by simp [hx]))]

/-- `matchDigits` consumes a given all-digit block. -/
theorem matchDigits_append {n : Nat} {d : List Char} (r : List Char)
    (hlen : d.length = n) (hd : ∀ c ∈ d, c.isDigit = true) :
    matchDigits n (d ++ r) = some (d, r) := by
  subst hlen
  induction d with
  | nil => rfl
  | cons c t ih =>
    show matchDigits (t.length + 1) (c :: (t ++ r)) = some (c :: t, r)
    unfold matchDigits
    rw [if_pos (hd c (by simp)), ih (fun x hx => hd x (by simp [hx]))]

/-- `matchSpGroup` consumes a four-digit block with no leading space. -/
theorem matchSpGroup_digits {d : List Char} (r : List Char)
    (hlen : d.length = 4) (hd : ∀ c ∈ d, c.isDigit = true) :
    matchSpGroup (d ++ r) = some (d, r) := by
  cases d with
  | nil => cases hlen
  | cons c t =>
    show (if isSpaceChar c = true then
        match matchDigits 4 (t ++ r) with
        | some (d, r2) => some (c :: d, r2)
        | none => none
      else matchDigits 4 (c :: (t ++ r))) = some (c :: t, r)
    rw [isSpaceChar_of_isDigit (hd c (by simp))]
    simp only [Bool.false_eq_true, if_false]
    exact matchDigits_append r hlen hd

/-- `matchSpGroup` consumes a space followed by a four-digit block. -/
theorem matchSpGroup_space {d : List Char} (r : List Char)
    (hlen : d.length = 4) (hd : ∀ c ∈ d, c.isDigit = true) :
    matchSpGroup (' ' :: d ++ r) = some (' ' :: d, r) := by
  show (if isSpaceChar ' ' = true then
      match matchDigits 4 (d ++ r) with
      | some (d2, r2) => some (' ' :: d2, r2)
      | none => none
    else matchDigits 4 (' ' :: (d ++ r))) = some (' ' :: d, r)
  rw [if_pos (show isSpaceChar ' ' = true from rfl)]
  rw [matchDigits_append r hlen hd]

/-- `matchSpGroups` consumes a list of blocks, each consumable by
`matchSpGroup`. -/
theorem matchSpGroups_flatten (gs : List (List Char)) (r : List Char)
    (h : ∀ g ∈ gs, ∀ t, matchSpGroup (g ++ t) = some (g, t)) :
    matchSpGroups gs.length (gs.flatten ++ r) = some (gs.flatten, r) := by
  induction gs with
  | nil => rfl
  | cons g gs ih =>
    show matchSpGroups (gs.length + 1) ((g :: gs).flatten ++ r) = _
    unfold matchSpGroups
    simp only [List.flatten_cons, List.append_assoc]
    simp only [h g (by simp)]
    simp only [ih (fun g2 hg t => h g2 (by simp [hg]) t)]

/-- The IBAN alternative succeeds on its exact shape: the two-letter code,
two digits, then five `matchSpGroup` blocks. -/
theorem matchIbanPfx_append (a b : Char) (d2 : List Char)
    (gs : List (List Char)) (r : List Char)
    (h2 : d2.length = 2) (hd2 : ∀ c ∈ d2, c.isDigit = true)
    (h5 : gs.length = 5)
    (hg : ∀ g ∈ gs, ∀ t, matchSpGroup (g ++ t) = some (g, t)) :
    matchIbanPfx a b (a :: b :: (d2 ++ (gs.flatten ++ r)))
      = some (a :: b :: (d2 ++ gs.flatten)) := by
  unfold matchIbanPfx
  simp only [beq_self_eq_true, Bool.and_self, if_true]
  simp only [matchDigits_append (gs.flatten ++ r) h2 hd2]
  simp only [show matchSpGroups 5 (gs.flatten ++ r) = some (gs.flatten, r) from
    h5 ▸ matchSpGroups_flatten gs r hg]

/-- The IBAN alternative fails when the two-letter code disagrees. -/
theorem matchIbanPfx_ne {a b c1 c2 : Char} {rest : List Char}
    (h : (c1 == a && c2 == b) = false) :
    matchIbanPfx a b (c1 :: c2 :: rest) = none := by
  simp [matchIbanPfx, h]

/-- `matchIbanAt` via a successful SK alternative. -/
theorem matchIbanAt_SK {l m : List Char} (h : matchIbanPfx 'S' 'K' l = some m) :
    matchIbanAt l = some m := by
  unfold matchIbanAt
  rw [h]

/-- `matchIbanAt` via a successful CZ alternative. -/
theorem matchIbanAt_CZ {l m : List Char}
    (hS : matchIbanPfx 'S' 'K' l = none)
    (h : matchIbanPfx 'C' 'Z' l = some m) : matchIbanAt l = some m := by
  unfold matchIbanAt
  rw [hS, h]

/-- No IBAN match can start at a character other than S or C. -/
theorem matchIbanAt_none {c : Char} {t : List Char}
    (hS : c ≠ 'S') (hC : c ≠ 'C') : matchIbanAt (c :: t) = none := by
  cases t with
  | nil => rfl
  | cons c2 t2 =>
    unfold matchIbanAt
    rw [matchIbanPfx_ne (by simp [beq_eq_false_iff_ne.mpr hS]),
      matchIbanPfx_ne (by simp [beq_eq_false_iff_ne.mpr hC])]

/-- The scan succeeds at the head position when the matcher does. -/
theorem searchIban_cons_some {c : Char} {t m : List Char}
    (h : matchIbanAt (c :: t) = some m) : searchIban (c :: t) = some m := by
  unfold searchIban
  rw [h]

/-- The scan skips a noise prefix that contains neither S nor C. -/
theorem searchIban_append_noise {pre s : List Char}
    (h : ∀ c ∈ pre, c ≠ 'S' ∧ c ≠ 'C') :
    searchIban (pre ++ s) = searchIban s := by
  induction pre with
  | nil => rfl
  | cons c p ih =>
    rw [List.cons_append]
    have hstep : searchIban (c :: (p ++ s)) = searchIban (p ++ s) := by
      show (match matchIbanAt (c :: (p ++ s)) with
        | some m => some m
        | none => searchIban (p ++ s)) = searchIban (p ++ s)
      rw [matchIbanAt_none (h c (by simp)).1 (h c (by simp)).2]
    rw [hstep]
    exact ih (fun x hx => h x (by simp [hx]))

/-- The scan finds an embedded identifier (given as code, check digits and
five blocks) right after a noise prefix free of S and C. -/
theorem searchIban_embedded (a b : Char)
    (hab : (a = 'S' ∧ b = 'K') ∨ (a = 'C' ∧ b = 'Z'))
    (d2 : List Char) (gs : List (List Char)) (pre post : List Char)
    (h2 : d2.length = 2) (hd2 : ∀ c ∈ d2, c.isDigit = true)
    (h5 : gs.length = 5)
    (hg : ∀ g ∈ gs, ∀ t, matchSpGroup (g ++ t) = some (g, t))
    (hpre : ∀ c ∈ pre, c ≠ 'S' ∧ c ≠ 'C') :
    searchIban (pre ++ (a :: b :: (d2 ++ (gs.flatten ++ post))))
      = some (a :: b :: (d2 ++ gs.flatten)) := by
  rw [searchIban_append_noise hpre]
  have hm := matchIbanPfx_append a b d2 gs post h2 hd2 h5 hg
  rcases hab with ⟨rfl, rfl⟩ | ⟨rfl, rfl⟩
  · exact searchIban_cons_some (matchIbanAt_SK hm)
  · exact searchIban_cons_some (matchIbanAt_CZ (matchIbanPfx_ne (by decide)) hm)

/-- C3 (amended): the identifier is found by searching for a 24-character
code starting with SK or CZ whose four-character blocks may be separated by
single whitespace characters, and only space characters (not other
whitespace) are then removed from the match.  An identifier written plain
or space-grouped, embedded after noise containing no S and no C, is
extracted with its spaces removed and prefix preserved; when the pattern
does not occur the identifier is empty. -/
theorem c3_iban_extraction (a b : Char)
    (hab : (a = 'S' ∧ b = 'K') ∨ (a = 'C' ∧ b = 'Z'))
    (d2 g1 g2 g3 g4 g5 pre post : List Char)
    (h2 : d2.length = 2) (hl1 : g1.length = 4) (hl2 : g2.length = 4)
    (hl3 : g3.length = 4) (hl4 : g4.length = 4) (hl5 : g5.length = 4)
    (hdig : ∀ c ∈ d2 ++ g1 ++ g2 ++ g3 ++ g4 ++ g5, c.isDigit = true)
    (hpre : ∀ c ∈ pre, c ≠ 'S' ∧ c ≠ 'C') :
    (parse_text (pre ++ (a :: b :: (d2 ++ g1 ++ g2 ++ g3 ++ g4 ++ g5)) ++ post)).iban
        = a :: b :: (d2 ++ g1 ++ g2 ++ g3 ++ g4 ++ g5)
    ∧ (parse_text (pre ++ (a :: b :: (d2 ++ (' ' :: g1) ++ (' ' :: g2)
          ++ (' ' :: g3) ++ (' ' :: g4) ++ (' ' :: g5))) ++ post)).iban
        = a :: b :: (d2 ++ g1 ++ g2 ++ g3 ++ g4 ++ g5)
    ∧ (∀ t, searchIban t = none → (parse_text t).iban = []) := by
  have hd2d : ∀ c ∈ d2, c.isDigit = true := fun c hc => hdig c (by simp [hc])
  have hg1d : ∀ c ∈ g1, c.isDigit = true := fun c hc => hdig c (by simp [hc])
  have hg2d : ∀ c ∈ g2, c.isDigit = true := fun c hc => hdig c (by simp [hc])
  have hg3d : ∀ c ∈ g3, c.isDigit = true := fun c hc => hdig c (by simp [hc])
  have hg4d : ∀ c ∈ g4, c.isDigit = true := fun c hc => hdig c (by simp [hc])
  have hg5d : ∀ c ∈ g5, c.isDigit = true := fun c hc => hdig c (by simp [hc])
  have haS : (a != ' ') = true := by
    rcases hab with ⟨rfl, -⟩ | ⟨rfl, -⟩ <;> decide
  have hbS : (b != ' ') = true := by
    rcases hab with ⟨-, rfl⟩ | ⟨-, rfl⟩ <;> decide
  have hspace : ((' ' : Char) != ' ') = false := by decide
  refine ⟨?_, ?_, ?_⟩
  · have hg : ∀ g ∈ ([g1, g2, g3, g4, g5] : List (List Char)), ∀ t,
        matchSpGroup (g ++ t) = some (g, t) := by
      intro g hgmem t
      simp only [List.mem_cons, List.not_mem_nil, or_false] at hgmem
      rcases hgmem with rfl | rfl | rfl | rfl | rfl
      · exact matchSpGroup_digits t hl1 hg1d
      · exact matchSpGroup_digits t hl2 hg2d
      · exact matchSpGroup_digits t hl3 hg3d
      · exact matchSpGroup_digits t hl4 hg4d
      · exact matchSpGroup_digits t hl5 hg5d
    have hsearch := searchIban_embedded a b hab d2 ([g1, g2, g3, g4, g5])
      pre post h2 hd2d (by simp) hg hpre
    rw [show ([g1, g2, g3, g4, g5] : List (List Char)).flatten
        = g1 ++ (g2 ++ (g3 ++ (g4 ++ g5))) from by simp] at hsearch
    rw [parse_text_iban,
      show pre ++ (a :: b :: (d2 ++ g1 ++ g2 ++ g3 ++ g4 ++ g5)) ++ post
        = pre ++ (a :: b :: (d2 ++ ((g1 ++ (g2 ++ (g3 ++ (g4 ++ g5)))) ++ post)))
        from by simp [List.append_assoc],
      hsearch]
    simp [haS, hbS, filter_space_digits hd2d, filter_space_digits hg1d,
      filter_space_digits hg2d, filter_space_digits hg3d,
      filter_space_digits hg4d, filter_space_digits hg5d,
      List.append_assoc]
  · have hg : ∀ g ∈ ([' ' :: g1, ' ' :: g2, ' ' :: g3, ' ' :: g4, ' ' :: g5] :
        List (List Char)), ∀ t, matchSpGroup (g ++ t) = some (g, t) := by
      intro g hgmem t
      simp only [List.mem_cons, List.not_mem_nil, or_false] at hgmem
      rcases hgmem with rfl | rfl | rfl | rfl | rfl
      · exact matchSpGroup_space t hl1 hg1d
      · exact matchSpGroup_space t hl2 hg2d
      · exact matchSpGroup_space t hl3 hg3d
      · exact matchSpGroup_space t hl4 hg4d
      · exact matchSpGroup_space t hl5 hg5d
    have hsearch := searchIban_embedded a b hab d2
      ([' ' :: g1, ' ' :: g2, ' ' :: g3, ' ' :: g4, ' ' :: g5])
      pre post h2 hd2d (by simp) hg hpre
    rw [show ([' ' :: g1, ' ' :: g2, ' ' :: g3, ' ' :: g4, ' ' :: g5] :
          List (List Char)).flatten
        = (' ' :: g1) ++ ((' ' :: g2) ++ ((' ' :: g3) ++ ((' ' :: g4)
            ++ (' ' :: g5)))) from by simp] at hsearch
    rw [parse_text_iban,
      show pre ++ (a :: b :: (d2 ++ (' ' :: g1) ++ (' ' :: g2) ++ (' ' :: g3)
            ++ (' ' :: g4) ++ (' ' :: g5))) ++ post
        = pre ++ (a :: b :: (d2 ++ (((' ' :: g1) ++ ((' ' :: g2) ++ ((' ' :: g3)
            ++ ((' ' :: g4) ++ (' ' :: g5))))) ++ post))) from by
          simp [List.append_assoc],
      hsearch]
    simp [haS, hbS, hspace, List.filter_append, List.filter_cons,
      filter_space_digits hd2d, filter_space_digits hg1d,
      filter_space_digits hg2d, filter_space_digits hg3d,
      filter_space_digits hg4d, filter_space_digits hg5d,
      List.append_assoc]
  · intro t ht
    rw [parse_text_iban, ht]

/-- Counterexample to C3 as stated: on a tab-separated identifier the
pattern still matches (the regex class is any whitespace, not only
spaces), and only spaces are removed afterwards, so the extracted
identifier keeps the tab: it is neither empty nor the whitespace-free
24-character code. -/
theorem c3_counterexample :
    (parse_text (("CZ65\t0800 0000 1920 0014 5399").data)).iban
        = ("CZ65\t08000000192000145399").data
    ∧ (parse_text (("CZ65\t0800 0000 1920 0014 5399").data)).iban ≠ []
    ∧ (parse_text (("CZ65\t0800 0000 1920 0014 5399").data)).iban
        ≠ ("CZ6508000000192000145399").data
    ∧ '\t' ∈ (parse_text (("CZ65\t0800 0000 1920 0014 5399").data)).iban := by
  refine ⟨by decide, by decide, by decide, by decide⟩

/-- Witness for C3 (amended) at a concrete Slovak identifier embedded in
noise. -/
theorem c3_witness :
    (∀ c ∈ ("faktura ").data, c ≠ 'S' ∧ c ≠ 'C')
    ∧ (parse_text (("faktura ").data
        ++ ('S' :: 'K' :: (("31").data ++ ("1200").data ++ ("0000").data
            ++ ("1987").data ++ ("4263").data ++ ("7541").data))
        ++ (" suma").data)).iban
      = 'S' :: 'K' :: (("31").data ++ ("1200").data ++ ("0000").data
          ++ ("1987").data ++ ("4263").data ++ ("7541").data) :=
  ⟨by decide,
    (c3_iban_extraction 'S' 'K' (Or.inl ⟨rfl, rfl⟩) (("31").data)
      (("1200").data) (("0000").data) (("1987").data) (("4263").data)
      (("7541").data) (("faktura ").data) ((" suma").data)
      (by decide) (by decide) (by decide) (by decide) (by decide) (by decide)
      (by decide) (by decide)).1⟩

end Faktury
